import Mathlib

/-!
# Student partitioning benchmark (`student_sorting.cpp`)

A shallow embedding of the program's data model and operations:

* `Double`    : the values of the C++ type `double` (binary floating point), with the
                comparison operators of IEEE 754;
* `Student`   : the record `struct Student { std::string name; double grade; }`;
* containers  : `std::vector`, `std::list` and `std::deque` are all used through the same
                sequence interface (forward iteration, `push_back`, `erase`), so a container
                is a `List` and an iterator is a position in it;
* `std::partition_copy`, `std::find_if`, `std::remove_if` : the library algorithms the two
                strategies call, written as the loops they are;
* `std::cout` : an explicit stream state (the text written so far and the floating point
                format flags), passed through every function that prints;
* objects     : the container objects of a run live in a `Memory`; a reference parameter is
                bound to the address of its argument and a value parameter to the address
                of a fresh copy.
-/

namespace StudentSorting

/-! ## The type `double` -/

/-- Values of the C++ type `double`. A finite value is `(-1)^neg * m * 2^e`; every finite
binary64 number has this form (with `m < 2^53` and `-1074 ≤ e ≤ 971`), and `finite true 0 e`
is the negative zero. -/
inductive Double where
  | finite (neg : Bool) (m : Nat) (e : Int)
  | inf (neg : Bool)
  | nan
deriving DecidableEq, Repr

namespace Double

/-- Numerator of the magnitude of a finite value `m * 2^e`, written as a fraction. -/
def magNum (m : Nat) (e : Int) : Nat := m * 2 ^ e.toNat

/-- Denominator of the magnitude of a finite value `m * 2^e`, written as a fraction. -/
def magDen (e : Int) : Nat := 2 ^ (-e).toNat

/-- Signed numerator of a finite value. -/
def signedNum (neg : Bool) (m : Nat) (e : Int) : Int :=
  if neg then -(magNum m e : Int) else (magNum m e : Int)

/-- The four-way comparison of IEEE 754: `none` is "unordered" (an operand is NaN); both
zeros compare equal. -/
def compare : Double → Double → Option Ordering
  | nan, _ => none
  | _, nan => none
  | inf s, inf t => some (if s = t then .eq else if s then .lt else .gt)
  | inf s, finite _ _ _ => some (if s then .lt else .gt)
  | finite _ _ _, inf t => some (if t then .gt else .lt)
  | finite s m e, finite t n f =>
      some (Ord.compare (signedNum s m e * (magDen f : Int)) (signedNum t n f * (magDen e : Int)))

/-- The operator `a < b` on `double`. -/
def lt (a b : Double) : Bool := compare a b == some .lt

/-- Conversion of a non-negative `int` to `double` (exact below `2^53`). -/
def ofNat (n : Nat) : Double := finite false n 0

end Double

/-- The literal `50.0`. -/
def fifty : Double := Double.ofNat 50

/-! ## Records -/

/-- The record `struct Student`. -/
structure Student where
  name : String
  grade : Double
deriving DecidableEq, Repr

/-- The predicate of both strategies: `s.grade < 50.0`. -/
def isFailing (s : Student) : Bool := Double.lt s.grade fifty

/-! ## Library algorithms -/

section Algorithms

variable {α σ : Type}

/-- The loop of `std::partition_copy(first, last, out_true, out_false, pred)` with both outputs
`std::back_inserter`s: every element is appended (`push_back`) to the first output when the
predicate holds and to the second one otherwise. The pair is the state of the two output
containers. -/
def partitionCopy (pred : α → Bool) : List α → List α × List α → List α × List α
  | [], out => out
  | x :: rest, out =>
      if pred x then partitionCopy pred rest (out.1 ++ [x], out.2)
      else partitionCopy pred rest (out.1, out.2 ++ [x])

/-- The loop of `std::find_if(first, last, pred)` over the container `c`, `last` being
`c.end()`: the position of the first element on which the predicate returns true. The
predicate may have a side effect on a state `σ` (the objects its closure captures by
reference). -/
def findIf (pred : σ → α → Bool × σ) (c : List α) (first : Nat) (st : σ) : Nat × σ :=
  if h : first < c.length then
    let r := pred st (c.get ⟨first, h⟩)
    if r.1 then (first, r.2) else findIf pred c (first + 1) r.2
  else (first, st)
termination_by c.length - first

/-- The main loop of `std::remove_if`: `for (; first != last; ++first) if (!pred(*first))
{ *result = std::move(*first); ++result; }`. The move assignment stores the value of `*first`
in `*result` and leaves `*first` in a valid but unspecified state, given by `movedFrom`
from the old value of the target and the value moved. -/
def removeIfLoop (movedFrom : α → α → α) (pred : σ → α → Bool × σ)
    (c : List α) (first result : Nat) (st : σ) : List α × Nat × σ :=
  if h : first < c.length then
    let x := c.get ⟨first, h⟩
    let r := pred st x
    if r.1 then removeIfLoop movedFrom pred c (first + 1) result r.2
    else
      let c1 := (c.set result x).set first (movedFrom (c.getD result x) x)
      removeIfLoop movedFrom pred c1 (first + 1) (result + 1) r.2
  else (c, result, st)
termination_by c.length - first
decreasing_by
  all_goals simp_wf
  all_goals omega

/-- The algorithm `std::remove_if(c.begin(), c.end(), pred)`: the container after the call,
the returned iterator (a position), and the state of the predicate. -/
def removeIf (movedFrom : α → α → α) (pred : σ → α → Bool × σ) (c : List α) (st : σ) :
    List α × Nat × σ :=
  let r := findIf pred c 0 st
  if r.1 = c.length then (c, r.1, r.2)
  else removeIfLoop movedFrom pred c (r.1 + 1) r.1 r.2

/-- The call `c.erase(it, c.end())`. -/
def eraseToEnd (c : List α) (it : Nat) : List α := c.take it

end Algorithms

/-! ## The two strategies (the containers they build) -/

/-- The outcome of a strategy: the container `failed` and the container shown as passed. -/
structure Groups where
  failed : List Student
  passed : List Student
deriving DecidableEq, Repr

/-- Strategy 1, lines 44-48: `failed` and `passed` start empty and are filled by
`std::partition_copy`. -/
def strategy1Groups (students : List Student) : Groups :=
  let out := partitionCopy isFailing students ([], [])
  { failed := out.1, passed := out.2 }

/-- The closure of strategy 2, which captures `failed` by reference: a failing record is
pushed to `failed` and reported for removal. -/
def strategy2Pred (failed : List Student) (s : Student) : Bool × List Student :=
  if Double.lt s.grade fifty then (true, failed ++ [s]) else (false, failed)

/-- Strategy 2, lines 57-66, on its own copy `students` of the argument: `std::remove_if`
with the pushing closure, then `erase` of the tail. The remaining container is the one
displayed as passed. -/
def strategy2Groups (movedFrom : Student → Student → Student) (students : List Student) :
    Groups :=
  let r := removeIf movedFrom strategy2Pred students []
  { failed := r.2.2, passed := eraseToEnd r.1 r.2.1 }

/-! ## The output stream `std::cout` -/

/-- Round the fraction `a / b` to the nearest integer, ties to even (the rounding of the
`printf` conversions under the default rounding mode). -/
def roundHalfEven (a b : Nat) : Nat :=
  let q := a / b
  let r := a % b
  if b < 2 * r then q + 1
  else if 2 * r = b ∧ q % 2 = 1 then q + 1
  else q

/-- Pad a digit string with zeros on the left to a given width. -/
def zeroPad (width : Nat) (digits : String) : String :=
  String.mk (List.replicate (width - digits.length) '0') ++ digits

/-- The conversion `%.<p>f` of the magnitude `a / b`: integer part, and a point followed by
exactly `p` digits when `p > 0`. -/
def fixedDigits (p a b : Nat) : String :=
  let n := roundHalfEven (a * 10 ^ p) b
  if p = 0 then Nat.repr n
  else Nat.repr (n / 10 ^ p) ++ "." ++ zeroPad p (Nat.repr (n % 10 ^ p))

/-- The least `k ≤ fuel` with `b ≤ a * 10^k` (and `fuel` itself when there is none). -/
def leadingShift (a b : Nat) : Nat → Nat → Nat
  | 0, k => k
  | fuel + 1, k => if b ≤ a * 10 ^ k then k else leadingShift a b fuel (k + 1)

/-- The decimal exponent `floor (log10 (a / b))` of a positive fraction. -/
def decimalExponent (a b : Nat) : Int :=
  if b ≤ a then (((Nat.repr (a / b)).length - 1 : Nat) : Int)
  else -((leadingShift a b (Nat.repr b).length 0 : Nat) : Int)

/-- The significand of `a / b` with `p` significant decimal digits, for a decimal exponent
`x`: the fraction divided by `10^(x - (p - 1))`, rounded. -/
def significand (p a b : Nat) (x : Int) : Nat :=
  let shift : Int := x - ((p - 1 : Nat) : Int)
  if 0 ≤ shift then roundHalfEven a (b * 10 ^ shift.toNat)
  else roundHalfEven (a * 10 ^ (-shift).toNat) b

/-- The exponent `X` that a conversion of style `e` with `p` significant digits would show
(rounding may carry into the next power of ten). -/
def styleEExponent (p a b : Nat) : Int :=
  if a = 0 then 0
  else
    let x := decimalExponent a b
    if significand p a b x = 10 ^ p then x + 1 else x

/-- Removal of the trailing zeros of the fractional part, and of the point when nothing
follows it (what `%g` does without the `#` flag). -/
def stripTrailingZeros (digits : String) : String :=
  if digits.toList.contains '.' then
    match digits.toList.reverse.dropWhile (fun ch => ch == '0') with
    | '.' :: r => String.mk r.reverse
    | r => String.mk r.reverse
  else digits

/-- The conversion of style `e` of `%g` with `p` significant digits, trailing zeros
removed: one digit, the other significant digits after a point, then the exponent with a
sign and at least two digits. -/
def scientificDigits (p a b : Nat) (x : Int) : String :=
  let n := significand p a b x
  let ds := (Nat.repr n).toList
  let mantissa := stripTrailingZeros (String.mk (ds.take 1 ++ '.' :: ds.drop 1))
  mantissa ++ "e" ++ (if x < 0 then "-" else "+") ++ zeroPad 2 (Nat.repr x.natAbs)

/-- The conversion `%.<p>g` of the magnitude `a / b` (a precision of zero counts as one). -/
def generalDigits (p a b : Nat) : String :=
  let q := if p = 0 then 1 else p
  let x := styleEExponent q a b
  if -4 ≤ x ∧ x < (q : Int) then stripTrailingZeros (fixedDigits ((q : Int) - 1 - x).toNat a b)
  else scientificDigits q a b x

/-- The text `operator<<(double)` writes: style `f` when the `floatfield` of the stream is
`fixed` and style `g` when it is unset, with the precision of the stream. The type `Double`
has one NaN and keeps no sign bit for it, so a NaN is always written `nan` here, also where a
C library writes `-nan` for a NaN whose sign bit is set. -/
def renderDouble (fixed : Bool) (precision : Nat) : Double → String
  | .nan => "nan"
  | .inf neg => (if neg then "-" else "") ++ "inf"
  | .finite neg m e =>
      (if neg then "-" else "")
        ++ (if fixed then fixedDigits precision (Double.magNum m e) (Double.magDen e)
            else generalDigits precision (Double.magNum m e) (Double.magDen e))

/-- The state of `std::cout` this program can observe and change: the text written so far,
whether `floatfield` is `fixed`, and the precision. -/
structure OStream where
  text : String
  fixed : Bool
  precision : Nat
deriving DecidableEq, Repr

namespace OStream

/-- The stream `std::cout` at program start: nothing written, `floatfield` unset,
precision 6. -/
def initial : OStream := ⟨"", false, 6⟩

/-- The insertion `os << s` of a string or a character literal. -/
def putStr (os : OStream) (s : String) : OStream := ⟨os.text ++ s, os.fixed, os.precision⟩

/-- The insertion `os << n` of a `size_t`. -/
def putSize (os : OStream) (n : Nat) : OStream :=
  ⟨os.text ++ Nat.repr n, os.fixed, os.precision⟩

/-- The insertion `os << d` of a `double`. -/
def putDouble (os : OStream) (d : Double) : OStream :=
  ⟨os.text ++ renderDouble os.fixed os.precision d, os.fixed, os.precision⟩

/-- The manipulator `os << std::fixed`. -/
def setFixed (os : OStream) : OStream := ⟨os.text, true, os.precision⟩

/-- The manipulator `os << std::setprecision(n)`. -/
def setPrecision (os : OStream) (n : Nat) : OStream := ⟨os.text, os.fixed, n⟩

end OStream

/-! ## The functions of the program -/

/-- One pass of the loop of `displayStudents`, line 24. -/
def displayRecord (os : OStream) (student : Student) : OStream :=
  ((((os.putStr "  Name: ").putStr student.name).putStr ", Grade: ").putDouble
    student.grade).putStr "\n"

/-- The function `displayStudents`: its parameter is a reference to a constant container,
which it only reads; its effect is on `std::cout`. -/
def displayStudents (students : List Student) (title : String) (os : OStream) : OStream :=
  let os1 := (((os.putStr title).putStr " (").putSize students.length).putStr " students)\n"
  let os2 := students.foldl displayRecord os1
  os2.putStr "\n"

/-- The function `measureExecutionTime`: `func` runs first, then the stream is set to
`std::fixed` with precision 6 and the line with the elapsed seconds is written. The clock
is outside the program, so the measured duration `elapsed` is a parameter. -/
def measureExecutionTime (elapsed : Double) (taskName : String) (func : OStream → OStream)
    (os : OStream) : OStream :=
  let os1 := func os
  let os2 := (os1.setFixed).setPrecision 6
  (((os2.putStr taskName).putStr " took ").putDouble elapsed).putStr " seconds.\n\n"

/-- The function `strategy1`: the two containers are built and displayed. -/
def strategy1 (students : List Student) (os : OStream) : OStream :=
  let groups := strategy1Groups students
  displayStudents groups.passed "Passed Students (Strategy 1)"
    (displayStudents groups.failed "Failed Students (Strategy 1)" os)

/-- The function `strategy2` on its parameter `students` (a copy made by the call): the result
is the final value of that local container together with the stream. -/
def strategy2 (movedFrom : Student → Student → Student) (students : List Student)
    (os : OStream) : List Student × OStream :=
  let groups := strategy2Groups movedFrom students
  (groups.passed,
    displayStudents groups.passed "Passed Students (Strategy 2)"
      (displayStudents groups.failed "Failed Students (Strategy 2)" os))

/-- The loop of `generateDataset`, from index `i` on. The library function `rand()` is outside
the program: `rnd k` is the value its `k`-th call returns (an `int` that is never negative),
and `calls` counts its calls so far. The grade is `rand() % 101` converted to `double`. -/
def generateLoop (rnd : Nat → Nat) (size i : Nat) (students : List Student) (calls : Nat) :
    List Student × Nat :=
  if i < size then
    generateLoop rnd size (i + 1)
      (students ++ [⟨"Student_" ++ Nat.repr i, Double.ofNat (rnd calls % 101)⟩]) (calls + 1)
  else (students, calls)
termination_by size - i

/-- The function `generateDataset`: the container returned and the number of calls of
`rand()` afterwards. -/
def generateDataset (rnd : Nat → Nat) (size : Nat) (calls : Nat) : List Student × Nat :=
  generateLoop rnd size 0 [] calls

/-- What lives outside the program text: the values of `rand()`, the state a move leaves its
source in, and the durations the clock measures (one per timed call). -/
structure Env where
  rnd : Nat → Nat
  movedFrom : Student → Student → Student
  elapsed : Nat → Double

/-! ## Container objects, references and copies -/

/-- The container objects alive at a point of the run, in the order of their construction.
The address of an object, which is what a reference holds, is its index. -/
structure Memory where
  objects : List (List Student)
deriving DecidableEq, Repr

namespace Memory

/-- The number of objects alive; also the address the next object gets. -/
def size (mem : Memory) : Nat := mem.objects.length

/-- The value of the object at an address. -/
def read (mem : Memory) (addr : Nat) : List Student := mem.objects.getD addr []

/-- Assignment of a new value to the object at an address. -/
def write (mem : Memory) (addr : Nat) (value : List Student) : Memory :=
  ⟨mem.objects.set addr value⟩

/-- Construction of a new object with a given value: its address and the memory with it. -/
def construct (mem : Memory) (value : List Student) : Nat × Memory :=
  (mem.size, ⟨mem.objects ++ [value]⟩)

/-- The end of a scope: the objects constructed since the memory had `mark` objects are
destroyed. -/
def destroyFrom (mem : Memory) (mark : Nat) : Memory := ⟨mem.objects.take mark⟩

end Memory

/-- The body of `strategy1`, lines 44-51, with `students` the address its reference
parameter is bound to: the locals `failed` and `passed` are constructed empty,
`std::partition_copy` reads the object behind the reference and appends to the two locals,
and both locals are displayed. The result is the memory before the locals are destroyed. -/
def strategy1Body (mem : Memory) (students : Nat) (os : OStream) : Memory × OStream :=
  let failed := mem.construct []
  let passed := failed.2.construct []
  let out := partitionCopy isFailing (passed.2.read students)
    (passed.2.read failed.1, passed.2.read passed.1)
  let mem1 := (passed.2.write failed.1 out.1).write passed.1 out.2
  let os1 := displayStudents (mem1.read failed.1) "Failed Students (Strategy 1)" os
  let os2 := displayStudents (mem1.read passed.1) "Passed Students (Strategy 1)" os1
  (mem1, os2)

/-- The call `strategy1(arg)`: the parameter is a reference, so the body runs on the address
of the argument itself; its locals are destroyed at the return. -/
def strategy1Call (mem : Memory) (arg : Nat) (os : OStream) : Memory × OStream :=
  let r := strategy1Body mem arg os
  (r.1.destroyFrom mem.size, r.2)

/-- The body of `strategy2`, lines 57-69, with `students` the address of its parameter
object: the local `failed` is constructed empty, `std::remove_if` rearranges the elements
of the parameter object in place while its closure pushes to `failed`, `erase` cuts the
parameter object at the returned iterator, and `failed` and the parameter object are
displayed. The result is the memory before the local and the parameter are destroyed. -/
def strategy2Body (movedFrom : Student → Student → Student) (mem : Memory) (students : Nat)
    (os : OStream) : Memory × OStream :=
  let failed := mem.construct []
  let r := removeIf movedFrom strategy2Pred (failed.2.read students)
    (failed.2.read failed.1)
  let mem1 := (failed.2.write students r.1).write failed.1 r.2.2
  let mem2 := mem1.write students (eraseToEnd (mem1.read students) r.2.1)
  let os1 := displayStudents (mem2.read failed.1) "Failed Students (Strategy 2)" os
  let os2 := displayStudents (mem2.read students) "Passed Students (Strategy 2)" os1
  (mem2, os2)

/-- The call `strategy2(arg)`: the parameter is passed by value, so a new object is
constructed as a copy of the argument and the body runs on the address of that copy; the
copy and the local are destroyed at the return. -/
def strategy2Call (movedFrom : Student → Student → Student) (mem : Memory) (arg : Nat)
    (os : OStream) : Memory × OStream :=
  let param := mem.construct (mem.read arg)
  let r := strategy2Body movedFrom param.2 param.1 os
  (r.1.destroyFrom mem.size, r.2)

/-- The function `measureExecutionTime` for a callable that works on the container objects
as well as on the stream, as the closures of `testPerformance` do (they capture `students`
by reference). -/
def measureExecutionTimeOn (elapsed : Double) (taskName : String)
    (func : Memory × OStream → Memory × OStream) (w : Memory × OStream) :
    Memory × OStream :=
  let w1 := func w
  let os2 := (w1.2.setFixed).setPrecision 6
  (w1.1, (((os2.putStr taskName).putStr " took ").putDouble elapsed).putStr " seconds.\n\n")

/-- The state of the whole run between two statements: the container objects, the stream,
and the numbers of calls of `rand()` and of timed calls so far. -/
structure World where
  mem : Memory
  cout : OStream
  randCalls : Nat
  timings : Nat

/-- The state of a run of `testPerformance`: the world, and the address of its local
container `students`. -/
structure Frame extends World where
  students : Nat

/-- Lines 85-89 of `testPerformance`: the heading, the construction of the local `students`
from the generated dataset, and its display. -/
def testPerformanceSetup (env : Env) (containerName : String) (datasetSize : Nat)
    (w : World) : Frame :=
  let os1 := (((w.cout.putStr "Testing with container: ").putStr containerName).putStr
    " (").putSize datasetSize
  let os2 := os1.putStr " students)\n"
  let gen := generateDataset env.rnd datasetSize w.randCalls
  let obj := w.mem.construct gen.1
  ⟨⟨obj.2, displayStudents (obj.2.read obj.1) "Original Students" os2, gen.2, w.timings⟩,
    obj.1⟩

/-- Line 92: the timed call `strategy1(students)`, the argument being the local container of
`testPerformance`. -/
def runStrategy1 (env : Env) (fr : Frame) : Frame :=
  let r := measureExecutionTimeOn (env.elapsed fr.timings) "Strategy 1"
    (fun w => strategy1Call w.1 fr.students w.2) (fr.mem, fr.cout)
  ⟨⟨r.1, r.2, fr.randCalls, fr.timings + 1⟩, fr.students⟩

/-- Line 95: the timed call `strategy2(students)`, the argument being the local container of
`testPerformance`. -/
def runStrategy2 (env : Env) (fr : Frame) : Frame :=
  let r := measureExecutionTimeOn (env.elapsed fr.timings) "Strategy 2"
    (fun w => strategy2Call env.movedFrom w.1 fr.students w.2) (fr.mem, fr.cout)
  ⟨⟨r.1, r.2, fr.randCalls, fr.timings + 1⟩, fr.students⟩

/-- The function `testPerformance`; its local `students` is destroyed at the return. -/
def testPerformance (env : Env) (containerName : String) (datasetSize : Nat) (w : World) :
    World :=
  let fr0 := testPerformanceSetup env containerName datasetSize w
  let fr1 := runStrategy1 env fr0
  let fr2 := runStrategy2 env fr1
  ⟨fr2.mem.destroyFrom w.mem.size,
    fr2.cout.putStr "========================================\n\n", fr2.randCalls, fr2.timings⟩

/-! ## Reference definitions for the statements -/

/-- The records of the scenario: A with 40, B with 60, C with 50, D with 10. -/
def scenario : List Student :=
  [⟨"A", Double.ofNat 40⟩, ⟨"B", Double.ofNat 60⟩, ⟨"C", Double.ofNat 50⟩,
    ⟨"D", Double.ofNat 10⟩]

/-- A move that leaves the name of its source empty, as the common implementations of
`std::string` do. -/
def emptyingMove (_target source : Student) : Student := ⟨"", source.grade⟩

/-- The header line of a report: the title and the count. -/
def headerLine (title : String) (n : Nat) : String :=
  title ++ " (" ++ Nat.repr n ++ " students)"

/-- The line of a report for one record, under a given format of the stream. -/
def recordLine (fixed : Bool) (precision : Nat) (s : Student) : String :=
  "  Name: " ++ s.name ++ ", Grade: " ++ renderDouble fixed precision s.grade

/-- The text of a list of lines, each ended by a newline. -/
def unlines : List String → String
  | [] => ""
  | line :: rest => line ++ "\n" ++ unlines rest

/-- The report the specification describes: the header line, one line per record in sequence
order, and one empty line. -/
def reportLines (title : String) (students : List Student) (fixed : Bool) (precision : Nat) :
    List String :=
  headerLine title students.length :: (students.map (recordLine fixed precision) ++ [""])

/-- The record `generateDataset` builds at index `i` when `rand()` returns `r`. -/
def generatedStudent (i r : Nat) : Student :=
  ⟨"Student_" ++ Nat.repr i, Double.ofNat (r % 101)⟩

/-- A duration of `2^-10` seconds, about one millisecond. -/
def sampleElapsed : Double := Double.finite false 1 (-10)

/-- An environment for examples: some values of `rand()`, the emptying move, and the sample
duration for every timed call. -/
def sampleEnv : Env := ⟨fun k => 37 * k + 11, emptyingMove, fun _ => sampleElapsed⟩

/-- A frame for examples: the scenario is the only object and is the local `students`. -/
def sampleFrame : Frame := ⟨⟨⟨[scenario]⟩, OStream.initial, 0, 0⟩, 0⟩

/-- The stream after one timed call has completed, starting from the initial stream. -/
def streamAfterTiming : OStream :=
  measureExecutionTime sampleElapsed "Strategy 1" (strategy1 scenario) OStream.initial

/-! ## What the library loops compute -/

section AlgorithmLemmas

variable {α : Type}

/-- The loop of `std::partition_copy` appends the stable filter of the input to the first
output and the stable filter of the complement to the second one. -/
theorem partitionCopy_eq_filter (pred : α → Bool) (l : List α) (out : List α × List α) :
    partitionCopy pred l out
      = (out.1 ++ l.filter pred, out.2 ++ l.filter (fun x => !pred x)) := by
  induction l generalizing out with
  | nil => simp [partitionCopy]
  | cons x rest ih =>
    by_cases hx : pred x = true
    · simp [partitionCopy, hx, ih]
    · simp [partitionCopy, hx, ih]

end AlgorithmLemmas

/-- The closure of strategy 2 answers `isFailing` and logs exactly the failing records. -/
theorem strategy2Pred_eq (failed : List Student) (s : Student) :
    strategy2Pred failed s = (isFailing s, if isFailing s then failed ++ [s] else failed) := by
  unfold strategy2Pred isFailing
  by_cases h : Double.lt s.grade fifty = true
  · simp [h]
  · simp [h]

/-- Reading the container at the current position of a scan. -/
theorem get_scan_position {α : Type} (before : List α) (x : α) (after : List α)
    (h : before.length < (before ++ x :: after).length) :
    (before ++ x :: after).get ⟨before.length, h⟩ = x := by
  rw [List.get_eq_getElem, List.getElem_append_right (Nat.le_refl _)]
  simp

/-- The search `std::find_if` of strategy 2, started behind an already scanned part, stops
at the first failing record and has pushed that record only. -/
theorem findIf_strategy2Pred (rest before : List Student) (st : List Student) :
    findIf strategy2Pred (before ++ rest) before.length st
      = (before.length + (rest.takeWhile (fun s => !isFailing s)).length,
         st ++ (rest.dropWhile (fun s => !isFailing s)).take 1) := by
  induction rest generalizing before with
  | nil =>
    rw [findIf]
    simp
  | cons x rest ih =>
    rw [findIf]
    have hlt : before.length < (before ++ x :: rest).length := by simp
    rw [dif_pos hlt]
    simp only [get_scan_position, strategy2Pred_eq]
    by_cases hx : isFailing x = true
    · simp [hx]
    · have hx0 : isFailing x = false := by simpa using hx
      have hstep := ih (before ++ [x])
      simp only [List.append_assoc, List.singleton_append, List.length_append,
        List.length_singleton] at hstep
      simp [hx0, hstep]
      omega

/-- The compaction loop of `std::remove_if` in strategy 2. The container is split into the
records kept so far, a non-empty gap of positions already given up, and the part not yet
scanned. At the end the kept part has grown by the passing records of the unscanned part, in
order, and the failing ones have been pushed to `failed`, in order. -/
theorem removeIfLoop_strategy2Pred (movedFrom : Student → Student → Student)
    (rest kept : List Student) (g : Student) (gap : List Student) (st : List Student) :
    (removeIfLoop movedFrom strategy2Pred (kept ++ g :: gap ++ rest)
        (kept.length + (gap.length + 1)) kept.length st).2.1
        = kept.length + (rest.filter (fun s => !isFailing s)).length
    ∧ (removeIfLoop movedFrom strategy2Pred (kept ++ g :: gap ++ rest)
        (kept.length + (gap.length + 1)) kept.length st).1.take
          (kept.length + (rest.filter (fun s => !isFailing s)).length)
        = kept ++ rest.filter (fun s => !isFailing s)
    ∧ (removeIfLoop movedFrom strategy2Pred (kept ++ g :: gap ++ rest)
        (kept.length + (gap.length + 1)) kept.length st).2.2
        = st ++ rest.filter isFailing := by
  induction rest generalizing kept g gap st with
  | nil =>
    rw [removeIfLoop]
    have hge : ¬ kept.length + (gap.length + 1) < (kept ++ g :: gap ++ []).length := by
      simp
    rw [dif_neg hge]
    simp
  | cons x rest ih =>
    rw [removeIfLoop]
    have hsplit : kept ++ g :: gap ++ x :: rest = (kept ++ g :: gap) ++ x :: rest := by simp
    have hpos : kept.length + (gap.length + 1) = (kept ++ g :: gap).length := by simp
    have hlt : kept.length + (gap.length + 1) < (kept ++ g :: gap ++ x :: rest).length := by
      simp
    rw [dif_pos hlt]
    have hget : (kept ++ g :: gap ++ x :: rest).get ⟨kept.length + (gap.length + 1), hlt⟩ = x := by
      simp only [hsplit, hpos]
      exact get_scan_position _ _ _ _
    simp only [hget, strategy2Pred_eq]
    by_cases hx : isFailing x = true
    · have hstep := ih kept g (gap ++ [x]) (st ++ [x])
      simp only [List.append_assoc, List.singleton_append, List.length_append,
        List.length_singleton, List.cons_append] at hstep
      simp only [hx, if_true, List.append_assoc, List.cons_append]
      simpa [hx, Nat.add_assoc] using hstep
    · have hx0 : isFailing x = false := by simpa using hx
      have hset : ((kept ++ g :: gap ++ x :: rest).set kept.length x).set
            (kept.length + (gap.length + 1))
            (movedFrom ((kept ++ g :: gap ++ x :: rest).getD kept.length x) x)
          = (kept ++ [x]) ++ (gap ++ [movedFrom g x]) ++ rest := by
        have h0 : (kept ++ g :: gap ++ x :: rest)[kept.length]? = some g := by
          rw [List.append_assoc, List.getElem?_append_right (Nat.le_refl _)]
          simp
        have h1 : (kept ++ g :: gap ++ x :: rest).getD kept.length x = g := by
          rw [List.getD_eq_getElem?_getD, h0]
          rfl
        have h2 : (kept ++ g :: gap ++ x :: rest).set kept.length x
            = (kept ++ x :: gap) ++ x :: rest := by
          simp [List.set_append_right]
        have h3 : kept.length + (gap.length + 1) = (kept ++ x :: gap).length := by simp
        rw [h1, h2, h3, List.set_append_right _ _ (Nat.le_refl _)]
        simp
      simp only [hx0, Bool.false_eq_true, if_false, hset]
      have hf1 : (x :: rest).filter (fun s => !isFailing s)
          = x :: rest.filter (fun s => !isFailing s) := by simp [hx0]
      have hf2 : (x :: rest).filter isFailing = rest.filter isFailing := by simp [hx0]
      have hk : kept ++ x :: rest.filter (fun s => !isFailing s)
          = (kept ++ [x]) ++ rest.filter (fun s => !isFailing s) := by simp
      have hn : kept.length + (x :: rest.filter (fun s => !isFailing s)).length
          = (kept ++ [x]).length + (rest.filter (fun s => !isFailing s)).length := by
        simp only [List.length_append, List.length_cons, List.length_nil]
        omega
      have hr : kept.length + 1 = (kept ++ [x]).length := by simp
      rw [hf1, hf2, hk, hn, hr]
      cases gap with
      | nil =>
        have e1 : kept ++ [x] ++ ([] ++ [movedFrom g x]) ++ rest
            = (kept ++ [x]) ++ movedFrom g x :: [] ++ rest := by simp
        have e2 : kept.length + (([] : List Student).length + 1) + 1
            = (kept ++ [x]).length + (([] : List Student).length + 1) := by simp
        rw [e1, e2]
        exact ih (kept ++ [x]) (movedFrom g x) [] st
      | cons g2 gap2 =>
        have e1 : kept ++ [x] ++ (g2 :: gap2 ++ [movedFrom g x]) ++ rest
            = (kept ++ [x]) ++ g2 :: (gap2 ++ [movedFrom g x]) ++ rest := by simp
        have e2 : kept.length + ((g2 :: gap2).length + 1) + 1
            = (kept ++ [x]).length + ((gap2 ++ [movedFrom g x]).length + 1) := by
          simp only [List.length_append, List.length_cons, List.length_nil]
          omega
        rw [e1, e2]
        exact ih (kept ++ [x]) g2 (gap2 ++ [movedFrom g x]) st

/-- Either no record fails, or the container splits at its first failing record. -/
theorem exists_first_failing (students : List Student) :
    (∀ s ∈ students, isFailing s = false)
    ∨ ∃ good x rest, students = good ++ x :: rest
        ∧ (∀ s ∈ good, isFailing s = false) ∧ isFailing x = true := by
  induction students with
  | nil => left; simp
  | cons y tail ih =>
    by_cases hy : isFailing y = true
    · right
      exact ⟨[], y, tail, by simp, by simp, hy⟩
    · have hy0 : isFailing y = false := by simpa using hy
      rcases ih with hall | ⟨good, x, rest, hsplit, hgood, hx⟩
      · left
        intro s hs
        rcases List.mem_cons.mp hs with rfl | hs
        · exact hy0
        · exact hall s hs
      · right
        refine ⟨y :: good, x, rest, by simp [hsplit], ?_, hx⟩
        intro s hs
        rcases List.mem_cons.mp hs with rfl | hs
        · exact hy0
        · exact hgood s hs

/-- Strategy 1 computes the two stable filters of its input. -/
theorem strategy1Groups_eq_filter (students : List Student) :
    strategy1Groups students
      = { failed := students.filter isFailing,
          passed := students.filter (fun s => !isFailing s) } := by
  simp [strategy1Groups, partitionCopy_eq_filter]

/-- Strategy 2 computes the two stable filters of its input, whatever a moved-from record
looks like. -/
theorem strategy2Groups_eq_filter (movedFrom : Student → Student → Student)
    (students : List Student) :
    strategy2Groups movedFrom students
      = { failed := students.filter isFailing,
          passed := students.filter (fun s => !isFailing s) } := by
  have hfind := findIf_strategy2Pred students [] []
  simp only [List.nil_append, List.length_nil, Nat.zero_add] at hfind
  unfold strategy2Groups removeIf eraseToEnd
  simp only [hfind]
  rcases exists_first_failing students with hall | ⟨good, x, rest, hsplit, hgood, hx⟩
  · have htake : students.takeWhile (fun s => !isFailing s) = students := by
      have := @List.takeWhile_append_of_pos Student (fun s => !isFailing s) students []
        (by intro a ha; simp [hall a ha])
      simpa using this
    have hdrop : students.dropWhile (fun s => !isFailing s) = [] := by
      have := @List.dropWhile_append_of_pos Student (fun s => !isFailing s) students []
        (by intro a ha; simp [hall a ha])
      simpa using this
    have hf : students.filter isFailing = [] := by
      rw [List.filter_eq_nil_iff]
      intro a ha
      simp [hall a ha]
    have hp : students.filter (fun s => !isFailing s) = students := by
      rw [List.filter_eq_self]
      intro a ha
      simp [hall a ha]
    simp [htake, hdrop, hf, hp]
  · have hgoodp : ∀ a ∈ good, (fun s => !isFailing s) a = true := by
      intro a ha
      simp [hgood a ha]
    have htake : students.takeWhile (fun s => !isFailing s) = good := by
      rw [hsplit, List.takeWhile_append_of_pos hgoodp]
      simp [hx]
    have hdrop : students.dropWhile (fun s => !isFailing s) = x :: rest := by
      rw [hsplit, List.dropWhile_append_of_pos hgoodp]
      simp [hx]
    have hne : ¬ good.length = students.length := by
      rw [hsplit]
      simp
    have hloop := removeIfLoop_strategy2Pred movedFrom rest good x [] [x]
    have hf : students.filter isFailing = x :: rest.filter isFailing := by
      rw [hsplit, List.filter_append]
      have : good.filter isFailing = [] := by
        rw [List.filter_eq_nil_iff]
        intro a ha
        simp [hgood a ha]
      simp [this, hx]
    have hp : students.filter (fun s => !isFailing s)
        = good ++ rest.filter (fun s => !isFailing s) := by
      rw [hsplit, List.filter_append]
      have : good.filter (fun s => !isFailing s) = good := by
        rw [List.filter_eq_self]
        exact hgoodp
      simp [this, hx]
    simp only [htake, hdrop, hne, if_false, List.take_succ_cons, List.take_zero,
      List.nil_append]
    have hc : students = good ++ x :: [] ++ rest := by simp [hsplit]
    rw [hf, hp, hc]
    simp only [List.length_nil, Nat.zero_add] at hloop
    obtain ⟨h1, h2, h3⟩ := hloop
    rw [h1, h2, h3]
    simp

/-- C1 (strategy equivalence): for every input sequence and whatever state a move leaves
its source in, the failed group of strategy 2 (remove_if with the pushing closure) is the
failed group of strategy 1 (partition_copy), and the container left after the erase in
strategy 2 is the passed group of strategy 1, record by record. -/
theorem strategy2_groups_eq_strategy1_groups (movedFrom : Student → Student → Student)
    (students : List Student) :
    (strategy2Groups movedFrom students).failed = (strategy1Groups students).failed
    ∧ (strategy2Groups movedFrom students).passed = (strategy1Groups students).passed := by
  rw [strategy2Groups_eq_filter, strategy1Groups_eq_filter]
  exact ⟨rfl, rfl⟩

/-- C2 (strategy 1 is the stable filter): the failed group of strategy 1 is the list of the
records with `grade < 50.0` in input order, its passed group is the list of all other records
in input order, and on the scenario the groups are A, D and B, C. -/
theorem strategy1_is_stable_filter :
    (∀ students : List Student,
      (strategy1Groups students).failed
          = students.filter (fun s => Double.lt s.grade fifty)
      ∧ (strategy1Groups students).passed
          = students.filter (fun s => !Double.lt s.grade fifty))
    ∧ (strategy1Groups scenario).failed = [⟨"A", Double.ofNat 40⟩, ⟨"D", Double.ofNat 10⟩]
    ∧ (strategy1Groups scenario).passed = [⟨"B", Double.ofNat 60⟩, ⟨"C", Double.ofNat 50⟩] := by
  refine ⟨?_, by decide, by decide⟩
  intro students
  rw [strategy1Groups_eq_filter]
  exact ⟨rfl, rfl⟩

/-- C3 (partition completeness): for both strategies the sizes of the failed group and of
the passed group (for strategy 2 the container after the erase) add up to the size of the
input. -/
theorem groups_sizes_add_up (movedFrom : Student → Student → Student)
    (students : List Student) :
    (strategy1Groups students).failed.length + (strategy1Groups students).passed.length
        = students.length
    ∧ (strategy2Groups movedFrom students).failed.length
        + (strategy2Groups movedFrom students).passed.length = students.length := by
  rw [strategy2Groups_eq_filter, strategy1Groups_eq_filter]
  have h := List.length_eq_length_filter_add (l := students) isFailing
  constructor <;> exact h.symm

/-- C4 (stability): for both strategies the failed group and the passed group are each a
subsequence of the input, so records of one group keep the relative order they have in the
input. -/
theorem groups_are_sublists (movedFrom : Student → Student → Student)
    (students : List Student) :
    List.Sublist (strategy1Groups students).failed students
    ∧ List.Sublist (strategy1Groups students).passed students
    ∧ List.Sublist (strategy2Groups movedFrom students).failed students
    ∧ List.Sublist (strategy2Groups movedFrom students).passed students := by
  rw [strategy2Groups_eq_filter, strategy1Groups_eq_filter]
  exact ⟨List.filter_sublist _, List.filter_sublist _, List.filter_sublist _,
    List.filter_sublist _⟩

/-- C8 (empty input): on the empty sequence strategy 1 builds two empty groups, and
strategy 2 builds an empty failed group and leaves an empty container; the functions are
total, so no other outcome exists. -/
theorem groups_of_empty (movedFrom : Student → Student → Student) :
    strategy1Groups [] = { failed := [], passed := [] }
    ∧ strategy2Groups movedFrom [] = { failed := [], passed := [] } := by
  rw [strategy2Groups_eq_filter, strategy1Groups_eq_filter]
  exact ⟨rfl, rfl⟩

/-! ## The generator -/

/-- The loop of `generateDataset` appends one record per remaining index, the `k`-th of them
named after `i + k` and graded by the `k`-th next value of `rand()`. -/
theorem generateLoop_eq (rnd : Nat → Nat) (size : Nat) (d i : Nat) (students : List Student)
    (calls : Nat) (hd : size - i = d) :
    generateLoop rnd size i students calls
      = (students ++ (List.range d).map (fun k => generatedStudent (i + k) (rnd (calls + k))),
         calls + d) := by
  induction d generalizing i students calls with
  | zero =>
    rw [generateLoop]
    have hge : ¬ i < size := by omega
    simp [hge]
  | succ d ih =>
    rw [generateLoop]
    have hlt : i < size := by omega
    rw [if_pos hlt, ih (i + 1) _ (calls + 1) (by omega)]
    rw [List.range_succ_eq_map, List.map_cons, List.map_map]
    have hfun : (fun k => generatedStudent (i + 1 + k) (rnd (calls + 1 + k)))
        = (fun k => generatedStudent (i + k) (rnd (calls + k))) ∘ Nat.succ := by
      funext k
      simp only [Function.comp, Nat.succ_eq_add_one]
      rw [Nat.add_right_comm i 1 k, Nat.add_right_comm calls 1 k]
      rfl
    rw [hfun]
    simp [generatedStudent, Nat.add_assoc, Nat.add_comm 1 d]

/-- C6 (generator contract): whatever values `rand()` returns, `generateDataset(n)` returns
exactly `n` records, and for every `i < n` the record at index `i` is named `Student_`
followed by the decimal digits of `i` and has an integer grade between 0 and 100. -/
theorem generateDataset_contract (rnd : Nat → Nat) (n calls : Nat) :
    (generateDataset rnd n calls).1.length = n
    ∧ ∀ i, i < n → ∃ g : Nat, g ≤ 100
        ∧ (generateDataset rnd n calls).1[i]?
            = some ⟨"Student_" ++ Nat.repr i, Double.ofNat g⟩ := by
  have h := generateLoop_eq rnd n n 0 [] calls (by omega)
  unfold generateDataset
  rw [h]
  refine ⟨by simp, ?_⟩
  intro i hi
  refine ⟨rnd (calls + i) % 101, by omega, ?_⟩
  simp [generatedStudent, hi]

/-- C6 at a dataset of three records: the record at index 2 is `Student_2` with a grade of
at most 100. -/
theorem generateDataset_contract_witness :
    ∃ g : Nat, g ≤ 100
      ∧ (generateDataset (fun k => 1000 * k + 77) 3 0).1[2]?
          = some ⟨"Student_" ++ Nat.repr 2, Double.ofNat g⟩ :=
  (generateDataset_contract (fun k => 1000 * k + 77) 3 0).2 2 (by decide)

/-! ## The caller's dataset -/

/-- Reading an object that was alive before others were constructed. -/
theorem getD_append_of_lt (objs more : List (List Student)) (a : Nat)
    (h : a < objs.length) : (objs ++ more).getD a [] = objs.getD a [] := by
  rw [List.getD_eq_getElem?_getD, List.getD_eq_getElem?_getD, List.getElem?_append_left h]

/-- Reading the first object constructed after `objs`. -/
theorem getD_append_at_length (objs : List (List Student)) (v : List Student)
    (more : List (List Student)) :
    (objs ++ v :: more).getD objs.length [] = v := by
  rw [List.getD_eq_getElem?_getD, List.getElem?_append_right (Nat.le_refl _)]
  simp

/-- Assignment to the first object constructed after `objs`. -/
theorem set_append_at_length (objs : List (List Student)) (v x : List Student)
    (more : List (List Student)) :
    (objs ++ v :: more).set objs.length x = objs ++ x :: more := by
  rw [List.set_append_right _ _ (Nat.le_refl _)]
  simp

/-- The body of `strategy1` leaves every object that was alive as it was and leaves its two
locals holding the two stable filters of the object behind its reference. -/
theorem strategy1Body_eq (mem : Memory) (a : Nat) (os : OStream) (h : a < mem.size) :
    strategy1Body mem a os
      = (⟨mem.objects ++ [(mem.read a).filter isFailing,
            (mem.read a).filter (fun s => !isFailing s)]⟩,
         strategy1 (mem.read a) os) := by
  obtain ⟨objs⟩ := mem
  simp only [Memory.size] at h
  have hread : (objs ++ [[]] ++ [[]]).getD a [] = objs.getD a [] := by
    rw [List.append_assoc]
    exact getD_append_of_lt objs _ a h
  have hfailed : (objs ++ [[]] ++ [[]]).getD objs.length [] = [] := by
    rw [List.append_assoc]
    exact getD_append_at_length objs [] _
  have hpassed : (objs ++ [[]] ++ [[]]).getD (objs ++ [[]]).length [] = [] :=
    getD_append_at_length (objs ++ [[]]) [] []
  have hset : ∀ x y : List Student,
      ((objs ++ [[]] ++ [[]]).set objs.length x).set (objs ++ [[]]).length y
        = objs ++ [x, y] := by
    intro x y
    have h1 : (objs ++ [[]] ++ [[]]).set objs.length x = (objs ++ [x]) ++ [[]] := by
      simp
    have h2 : (objs ++ [[]]).length = (objs ++ [x]).length := by simp
    rw [h1, h2, set_append_at_length]
    simp
  have hgetf : ∀ x y : List Student, (objs ++ [x, y]).getD objs.length [] = x := by
    intro x y
    exact getD_append_at_length objs x [y]
  have hgetp : ∀ x y : List Student, (objs ++ [x, y]).getD (objs ++ [[]]).length [] = y := by
    intro x y
    have e : objs ++ [x, y] = (objs ++ [x]) ++ [y] := by simp
    have h2 : (objs ++ [[]]).length = (objs ++ [x]).length := by simp
    rw [e, h2]
    exact getD_append_at_length (objs ++ [x]) y []
  simp only [strategy1Body, strategy1, strategy1Groups, Memory.construct, Memory.read,
    Memory.write, Memory.size, hread, hfailed, hpassed, hset, hgetf, hgetp,
    partitionCopy_eq_filter, List.nil_append]

/-- The body of `strategy2` changes one object that was alive, its parameter: it ends as
the stable filter of the passing records, and the local `failed` as that of the failing. -/
theorem strategy2Body_eq (movedFrom : Student → Student → Student) (mem : Memory) (a : Nat)
    (os : OStream) (h : a < mem.size) :
    strategy2Body movedFrom mem a os
      = (⟨mem.objects.set a ((mem.read a).filter (fun s => !isFailing s))
            ++ [(mem.read a).filter isFailing]⟩,
         (strategy2 movedFrom (mem.read a) os).2) := by
  obtain ⟨objs⟩ := mem
  simp only [Memory.size] at h
  have hgroups := strategy2Groups_eq_filter movedFrom (objs.getD a [])
  simp only [strategy2Groups, Groups.mk.injEq] at hgroups
  obtain ⟨hf, hp⟩ := hgroups
  have hread : (objs ++ [[]]).getD a [] = objs.getD a [] := getD_append_of_lt objs _ a h
  have hfailed : (objs ++ [[]]).getD objs.length [] = [] := getD_append_at_length objs [] []
  have hne : a ≠ objs.length := Nat.ne_of_lt h
  have hlen : ∀ x : List Student, (objs.set a x).length = objs.length := by
    intro x
    simp
  have hset1 : ∀ x y : List Student,
      ((objs ++ [[]]).set a x).set objs.length y = objs.set a x ++ [y] := by
    intro x y
    rw [List.set_append_left a x h]
    have hs := set_append_at_length (objs.set a x) [] y []
    rw [hlen] at hs
    exact hs
  have hget1 : ∀ x y : List Student, (objs.set a x ++ [y]).getD a [] = x := by
    intro x y
    rw [getD_append_of_lt _ _ a (by rw [hlen]; exact h), List.getD_eq_getElem?_getD,
      List.getElem?_set_self h]
    rfl
  have hget2 : ∀ x y : List Student, (objs.set a x ++ [y]).getD objs.length [] = y := by
    intro x y
    have hs := getD_append_at_length (objs.set a x) y []
    rw [hlen] at hs
    exact hs
  have hset2 : ∀ x y z : List Student,
      (objs.set a x ++ [y]).set a z = objs.set a z ++ [y] := by
    intro x y z
    rw [List.set_append_left a z (by rw [hlen]; exact h), List.set_set]
  simp only [strategy2Body, strategy2, strategy2Groups, Memory.construct, Memory.read,
    Memory.write, Memory.size, hread, hfailed, hset1, hget1, hget2, hset2, hf, hp]

/-- The call of `strategy1` returns with the memory it was given, having displayed the
groups of the argument. -/
theorem strategy1Call_eq (mem : Memory) (a : Nat) (os : OStream) (h : a < mem.size) :
    strategy1Call mem a os = (mem, strategy1 (mem.read a) os) := by
  simp only [strategy1Call, strategy1Body_eq mem a os h, Memory.destroyFrom, Memory.size,
    List.take_left]

/-- The call of `strategy2` returns with the memory it was given, having displayed the
groups of the argument: what its body changed was the copy. -/
theorem strategy2Call_eq (movedFrom : Student → Student → Student) (mem : Memory) (a : Nat)
    (os : OStream) :
    strategy2Call movedFrom mem a os = (mem, (strategy2 movedFrom (mem.read a) os).2) := by
  have hp : (mem.construct (mem.read a)).1 < (mem.construct (mem.read a)).2.size := by
    simp [Memory.construct, Memory.size]
  have hcopy : (mem.construct (mem.read a)).2.read (mem.construct (mem.read a)).1
      = mem.read a := by
    simp only [Memory.construct, Memory.read, Memory.size]
    exact getD_append_at_length mem.objects _ []
  simp only [strategy2Call, strategy2Body_eq movedFrom _ _ os hp, hcopy]
  simp only [Memory.construct, Memory.destroyFrom, Memory.size,
    set_append_at_length mem.objects, List.append_assoc, List.take_left]

/-- Run on the object of the caller itself, as a call by reference would, the body of
`strategy2` compacts that object: on the scenario it is left with B and C. -/
theorem strategy2Body_compacts_its_parameter :
    (strategy2Body emptyingMove sampleFrame.mem 0 OStream.initial).1.read 0
      = [⟨"B", Double.ofNat 60⟩, ⟨"C", Double.ofNat 50⟩] := by
  rw [strategy2Body_eq emptyingMove sampleFrame.mem 0 OStream.initial (by decide)]
  decide

/-- C7 (the dataset of the caller is untouched): for every state of `testPerformance` in
which `students` is a live object, the memory is the same after the timed call of strategy 1
and after the timed call of strategy 2, so `students` still holds the same records;
strategy 2 displays the groups of those records, the ones strategy 1 read; while the body of
strategy 2 runs, its parameter object (the copy) is compacted and `students` is not; and
in `testPerformance` the records are those of the generated dataset displayed as original. -/
theorem testPerformance_keeps_students (env : Env) (fr : Frame) (os : OStream)
    (containerName : String) (datasetSize : Nat) (w : World)
    (hvalid : fr.students < fr.mem.size) :
    (runStrategy1 env fr).mem = fr.mem
    ∧ (runStrategy1 env fr).mem.read fr.students = fr.mem.read fr.students
    ∧ (runStrategy2 env (runStrategy1 env fr)).mem = fr.mem
    ∧ (runStrategy2 env (runStrategy1 env fr)).mem.read fr.students
        = fr.mem.read fr.students
    ∧ (runStrategy2 env (runStrategy1 env fr)).cout
        = measureExecutionTime (env.elapsed (fr.timings + 1)) "Strategy 2"
            (fun o => (strategy2 env.movedFrom (fr.mem.read fr.students) o).2)
            (measureExecutionTime (env.elapsed fr.timings) "Strategy 1"
              (strategy1 (fr.mem.read fr.students)) fr.cout)
    ∧ (strategy2Body env.movedFrom (fr.mem.construct (fr.mem.read fr.students)).2
          fr.mem.size os).1.read fr.mem.size
        = (fr.mem.read fr.students).filter (fun s => !Double.lt s.grade fifty)
    ∧ (strategy2Body env.movedFrom (fr.mem.construct (fr.mem.read fr.students)).2
          fr.mem.size os).1.read fr.students
        = fr.mem.read fr.students
    ∧ (testPerformanceSetup env containerName datasetSize w).mem.read
          (testPerformanceSetup env containerName datasetSize w).students
        = (generateDataset env.rnd datasetSize w.randCalls).1
    ∧ (runStrategy2 env (runStrategy1 env
          (testPerformanceSetup env containerName datasetSize w))).mem.read
          (testPerformanceSetup env containerName datasetSize w).students
        = (generateDataset env.rnd datasetSize w.randCalls).1 := by
  have hrun1 : ∀ f : Frame, f.students < f.mem.size →
      (runStrategy1 env f).mem = f.mem
      ∧ (runStrategy1 env f).students = f.students
      ∧ (runStrategy1 env f).timings = f.timings + 1
      ∧ (runStrategy1 env f).cout
          = measureExecutionTime (env.elapsed f.timings) "Strategy 1"
              (strategy1 (f.mem.read f.students)) f.cout := by
    intro f hf
    have hc := strategy1Call_eq f.mem f.students f.cout hf
    refine ⟨?_, rfl, rfl, ?_⟩ <;>
      simp only [runStrategy1, measureExecutionTimeOn, measureExecutionTime, hc]
  have hrun2 : ∀ f : Frame,
      (runStrategy2 env f).mem = f.mem
      ∧ (runStrategy2 env f).cout
          = measureExecutionTime (env.elapsed f.timings) "Strategy 2"
              (fun o => (strategy2 env.movedFrom (f.mem.read f.students) o).2) f.cout := by
    intro f
    have hc := strategy2Call_eq env.movedFrom f.mem f.students f.cout
    refine ⟨?_, ?_⟩ <;>
      simp only [runStrategy2, measureExecutionTimeOn, measureExecutionTime, hc]
  have hcopyAddr : (fr.mem.construct (fr.mem.read fr.students)).1 = fr.mem.size := rfl
  have hcopyValid : fr.mem.size < (fr.mem.construct (fr.mem.read fr.students)).2.size := by
    simp [Memory.construct, Memory.size]
  have hcopyRead : (fr.mem.construct (fr.mem.read fr.students)).2.read fr.mem.size
      = fr.mem.read fr.students := by
    simp only [Memory.construct, Memory.read, Memory.size]
    exact getD_append_at_length fr.mem.objects _ []
  have hsetupValid : (testPerformanceSetup env containerName datasetSize w).students
      < (testPerformanceSetup env containerName datasetSize w).mem.size := by
    simp [testPerformanceSetup, Memory.construct, Memory.size]
  have hsetupRead : (testPerformanceSetup env containerName datasetSize w).mem.read
        (testPerformanceSetup env containerName datasetSize w).students
      = (generateDataset env.rnd datasetSize w.randCalls).1 := by
    simp only [testPerformanceSetup, Memory.construct, Memory.read, Memory.size]
    exact getD_append_at_length w.mem.objects _ []
  obtain ⟨h1m, h1s, h1t, h1c⟩ := hrun1 fr hvalid
  obtain ⟨h2m, h2c⟩ := hrun2 (runStrategy1 env fr)
  refine ⟨h1m, by rw [h1m], by rw [h2m, h1m], by rw [h2m, h1m], ?_, ?_, ?_, hsetupRead, ?_⟩
  · rw [h2c, h1m, h1s, h1t, h1c]
  · rw [strategy2Body_eq env.movedFrom _ fr.mem.size os hcopyValid, hcopyRead]
    simp only [Memory.construct, Memory.read, Memory.size]
    rw [set_append_at_length, List.append_assoc]
    exact getD_append_at_length fr.mem.objects _ _
  · rw [strategy2Body_eq env.movedFrom _ fr.mem.size os hcopyValid, hcopyRead]
    simp only [Memory.construct, Memory.read, Memory.size] at hvalid ⊢
    rw [set_append_at_length, List.append_assoc]
    exact getD_append_of_lt fr.mem.objects _ fr.students hvalid
  · obtain ⟨g1m, _, _, _⟩ := hrun1 _ hsetupValid
    obtain ⟨g2m, _⟩ := hrun2 (runStrategy1 env
      (testPerformanceSetup env containerName datasetSize w))
    rw [g2m, g1m, hsetupRead]

/-- C7 at the sample frame: after both timed calls `students` still holds the scenario. -/
theorem testPerformance_keeps_students_witness :
    (runStrategy2 sampleEnv (runStrategy1 sampleEnv sampleFrame)).mem.read 0 = scenario :=
  (testPerformance_keeps_students sampleEnv sampleFrame OStream.initial "Vector" 4
    sampleFrame.toWorld (by decide)).2.2.2.1

/-! ## The reporter -/

/-- The text of lines put one after the other. -/
theorem unlines_append (front back : List String) :
    unlines (front ++ back) = unlines front ++ unlines back := by
  induction front with
  | nil => simp [unlines]
  | cons line rest ih => simp [unlines, ih, String.append_assoc]

/-- The loop of `displayStudents` writes one line per record and keeps the format. -/
theorem foldl_displayRecord (students : List Student) (os : OStream) :
    students.foldl displayRecord os
      = ⟨os.text ++ unlines (students.map (recordLine os.fixed os.precision)),
         os.fixed, os.precision⟩ := by
  induction students generalizing os with
  | nil => simp [unlines]
  | cons x rest ih =>
    rw [List.foldl_cons, ih]
    simp [displayRecord, OStream.putStr, OStream.putDouble, unlines, recordLine,
      String.append_assoc]

/-- The function `displayStudents` appends the report to the stream and keeps the format. -/
theorem displayStudents_eq (students : List Student) (title : String) (os : OStream) :
    displayStudents students title os
      = ⟨os.text ++ unlines (reportLines title students os.fixed os.precision),
         os.fixed, os.precision⟩ := by
  simp [displayStudents, foldl_displayRecord, OStream.putStr, OStream.putSize, reportLines,
    unlines, unlines_append, headerLine, String.append_assoc]

/-- Strings that follow the same string are equal when the wholes are. -/
theorem string_append_left_cancel (a b c : String) (h : a ++ b = a ++ c) : b = c := by
  have hdata := congrArg String.data h
  simp only [String.data_append, List.append_cancel_left_eq] at hdata
  exact String.ext hdata

/-- C9 (reporter output): `displayStudents` appends to the stream the header line with the
title and the count, then one line per record in sequence order with its name and its grade
as the stream renders it, then one empty line, and nothing else; there are as many record
lines as records, and the format of the stream is as before. -/
theorem displayStudents_output (students : List Student) (title : String) (os : OStream) :
    (displayStudents students title os).text
        = os.text ++ unlines
            ((title ++ " (" ++ Nat.repr students.length ++ " students)")
              :: (students.map (fun s => "  Name: " ++ s.name ++ ", Grade: "
                    ++ renderDouble os.fixed os.precision s.grade) ++ [""]))
    ∧ (students.map (fun s => "  Name: " ++ s.name ++ ", Grade: "
          ++ renderDouble os.fixed os.precision s.grade)).length = students.length
    ∧ (displayStudents students title os).fixed = os.fixed
    ∧ (displayStudents students title os).precision = os.precision := by
  rw [displayStudents_eq]
  refine ⟨rfl, by simp, rfl, rfl⟩

/-! ## The stream format is shared -/

set_option maxRecDepth 1000000 in
/-- C10 as stated fails: on the initial stream `displayStudents` renders the grade 40 as
`40`, and on the stream left by one completed `measureExecutionTime` the same sequence with
the same title is rendered with `40.000000`, so the record lines differ. -/
theorem display_differs_after_timing :
    (displayStudents scenario "Original Students" OStream.initial).text
        = OStream.initial.text ++ unlines
            ["Original Students (4 students)", "  Name: A, Grade: 40", "  Name: B, Grade: 60",
              "  Name: C, Grade: 50", "  Name: D, Grade: 10", ""]
    ∧ (displayStudents scenario "Original Students" streamAfterTiming).text
        = streamAfterTiming.text ++ unlines
            ["Original Students (4 students)", "  Name: A, Grade: 40.000000",
              "  Name: B, Grade: 60.000000", "  Name: C, Grade: 50.000000",
              "  Name: D, Grade: 10.000000", ""]
    ∧ recordLine OStream.initial.fixed OStream.initial.precision ⟨"A", Double.ofNat 40⟩
        ≠ recordLine streamAfterTiming.fixed streamAfterTiming.precision
            ⟨"A", Double.ofNat 40⟩ := by
  refine ⟨?_, ?_, ?_⟩
  · rw [displayStudents_eq]
    decide
  · rw [displayStudents_eq]
    have hfmt : streamAfterTiming.fixed = true ∧ streamAfterTiming.precision = 6 := ⟨rfl, rfl⟩
    rw [hfmt.1, hfmt.2]
    decide
  · decide

/-- C10 amended: the text `displayStudents` emits is determined by the sequence, the title
and the floating point format of the stream (the `fixed` flag and the precision) at the
call: on two streams with the same format the same text is emitted; and every
`measureExecutionTime` leaves the stream with `fixed` set and precision 6. -/
theorem display_text_of_stream_format (students : List Student) (title : String)
    (os1 os2 : OStream) (emitted : String) (elapsed : Double) (taskName : String)
    (func : OStream → OStream)
    (hfixed : os1.fixed = os2.fixed) (hprecision : os1.precision = os2.precision)
    (hemitted : (displayStudents students title os1).text = os1.text ++ emitted) :
    (displayStudents students title os2).text = os2.text ++ emitted
    ∧ (measureExecutionTime elapsed taskName func os1).fixed = true
    ∧ (measureExecutionTime elapsed taskName func os1).precision = 6 := by
  refine ⟨?_, rfl, rfl⟩
  rw [displayStudents_eq] at hemitted ⊢
  have h := string_append_left_cancel _ _ _ hemitted
  rw [← hfixed, ← hprecision, h]

set_option maxRecDepth 1000000 in
/-- The amended C10 on two streams in the default format that hold different texts. -/
theorem display_text_of_stream_format_witness :
    (displayStudents scenario "T" (OStream.initial.putStr "earlier text\n")).text
        = (OStream.initial.putStr "earlier text\n").text ++ unlines
            ["T (4 students)", "  Name: A, Grade: 40", "  Name: B, Grade: 60",
              "  Name: C, Grade: 50", "  Name: D, Grade: 10", ""]
    ∧ (measureExecutionTime sampleElapsed "Strategy 1" (strategy1 scenario)
        OStream.initial).fixed = true
    ∧ (measureExecutionTime sampleElapsed "Strategy 1" (strategy1 scenario)
        OStream.initial).precision = 6 :=
  display_text_of_stream_format scenario "T" OStream.initial
    (OStream.initial.putStr "earlier text\n") _ sampleElapsed "Strategy 1"
    (strategy1 scenario) rfl rfl (by rw [displayStudents_eq]; decide)

end StudentSorting
